import Mathlib

/-
  Verification of the InputDialog program (src/infinity.py).

  The program is a single-window desktop dialog built on a text-entry
  widget: it collects multi-line text, auto-submits on a countdown, and
  the host process prints the captured text line by line to stdout.

  Shallow embedding notes:
  * The text widget's store is modelled as a `List Char` that always ends
    with the implicit trailing newline a line-based text store keeps
    (`tk.Text` semantics: `get("1.0", "end-1c")` drops exactly that last
    character).  Insertion happens at the cursor, which in the modelled
    scenarios sits at the end of the user text, just before the implicit
    trailing newline.
  * The undo history is modelled as snapshot stacks: an edit performed
    right after a separator was placed pushes the pre-edit store onto the
    undo stack (so an undo reverts the whole group of edits back to the
    previous separator); a new edit clears the redo stack.  `edit_undo` /
    `edit_redo` return `none` where the toolkit raises `TclError`
    ("nothing to undo/redo"); the caller's `try/except` is the `match` on
    that option.
  * Scheduled callbacks (`root.after(ms, cb)`) are logged as
    `(delay in ms, callback)` pairs; an `Event` firing a callback models
    the event loop invoking it.  Per the concurrency model, a callback
    arriving after the window was destroyed is a no-op, so `step` is the
    identity on destroyed states.
  * Wall-clock time (Python `time.time()`) is modelled as an exact
    rational carried by key events; `on_key_press` compares the gap
    against 1 second exactly as the source does.
  * Modelled at the level of the handlers the source binds explicitly.
    For `<Shift-Return>` the source binds a no-op precisely to let the
    widget's default class binding insert the newline ("Bind Shift+Enter
    to allow normal newlines"), so that event inserts a literal newline.
-/

namespace Infinity

/-- The `tk.Text` widget with `undo=True`: the character store (always
ending in the implicit trailing newline), the undo/redo snapshot stacks,
and whether a separator has been placed since the last edit. -/
structure TextWidget where
  store : List Char
  undoStack : List (List Char)
  redoStack : List (List Char)
  sepPending : Bool
deriving DecidableEq, Repr

/-- `edit_separator` (line 107): mark a checkpoint boundary in the undo
history. -/
def edit_separator (w : TextWidget) : TextWidget :=
  { w with sepPending := true }

/-- Inserting one character at the cursor (sitting at the end of the user
text, before the implicit trailing newline).  If a separator is pending,
the pre-edit store becomes a new undo checkpoint; any new edit clears the
redo stack. -/
def textInsertAtCursor (w : TextWidget) (c : Char) : TextWidget :=
  { store := w.store.dropLast ++ [c, '\n'],
    undoStack := if w.sepPending then w.store :: w.undoStack else w.undoStack,
    redoStack := [],
    sepPending := false }

/-- `delete("1.0", tk.END)` (line 139): remove everything; the widget
keeps its implicit trailing newline. -/
def textDeleteAll (w : TextWidget) : TextWidget :=
  { store := ['\n'],
    undoStack := if w.sepPending then w.store :: w.undoStack else w.undoStack,
    redoStack := [],
    sepPending := false }

/-- `insert("1.0", s)` (line 140): insert a string at the very start. -/
def textInsertAtStart (w : TextWidget) (s : List Char) : TextWidget :=
  { store := s ++ w.store,
    undoStack := if w.sepPending then w.store :: w.undoStack else w.undoStack,
    redoStack := [],
    sepPending := false }

/-- `edit_undo` (line 112): revert to the previous checkpoint, or fail
(`none` models the raised `TclError`) when the undo stack is empty. -/
def edit_undo (w : TextWidget) : Option TextWidget :=
  match w.undoStack with
  | [] => none
  | snap :: rest =>
    some { store := snap, undoStack := rest,
           redoStack := w.store :: w.redoStack, sepPending := true }

/-- `edit_redo` (line 121): reapply the checkpoint most recently undone,
or fail (`none` models the raised `TclError`) when the redo stack is
empty. -/
def edit_redo (w : TextWidget) : Option TextWidget :=
  match w.redoStack with
  | [] => none
  | snap :: rest =>
    some { store := snap, redoStack := rest,
           undoStack := w.store :: w.undoStack, sepPending := true }

/-- The callbacks handed to `root.after` in the source. -/
inductive Callback where
  | forceScrollbarVisible
  | updateTimer
  | clearStatus
deriving DecidableEq, Repr

/-- The whole application state of `InfinityApp`. -/
structure AppState where
  text : TextWidget
  statusText : String
  statusColor : String
  timerLabel : String
  remainingTime : Int
  infinityInput : Option String
  destroyed : Bool
  scheduled : List (Nat × Callback)
  lastKeystrokeTime : ℚ
deriving DecidableEq, Repr

/-- `root.after(ms, cb)`: log a scheduled callback. -/
def after (ms : Nat) (cb : Callback) (s : AppState) : AppState :=
  { s with scheduled := s.scheduled ++ [(ms, cb)] }

/-- `status_label.config(text=..., foreground=...)`. -/
def statusConfig (t color : String) (s : AppState) : AppState :=
  { s with statusText := t, statusColor := color }

/-- `on_key_press` (lines 97-103): place an edit separator when more than
one second elapsed since the previous keystroke, then record the
keystroke time. -/
def on_key_press (tau : ℚ) (s : AppState) : AppState :=
  { s with
    text := if tau - s.lastKeystrokeTime > 1 then edit_separator s.text else s.text,
    lastKeystrokeTime := tau }

/-- `undo_action` (lines 109-116): try `edit_undo`; on `TclError` show the
transient message and schedule its clearing 1500 ms later. -/
def undo_action (s : AppState) : AppState :=
  match edit_undo s.text with
  | some w => { s with text := w }
  | none => after 1500 .clearStatus (statusConfig "Nothing to undo" "red" s)

/-- `redo_action` (lines 118-125): try `edit_redo`; on `TclError` show the
transient message and schedule its clearing 1500 ms later. -/
def redo_action (s : AppState) : AppState :=
  match edit_redo s.text with
  | some w => { s with text := w }
  | none => after 1500 .clearStatus (statusConfig "Nothing to redo" "red" s)

/-- Python `f"{n:02d}"` for the second counts produced by the timer
(always nonnegative, since `%` follows the divisor's sign). -/
def pad2 (n : Int) : String :=
  if 0 ≤ n ∧ n < 10 then "0" ++ toString n else toString n

/-- The timer label text (line 131): minutes and seconds are Python `//`
and `%`, i.e. floor division and divisor-signed remainder. -/
def timerText (r : Int) : String :=
  "Auto-submit in: " ++ toString (Int.fdiv r 60) ++ ":" ++ pad2 (Int.emod r 60)

/-- `submit` (lines 152-155): capture the buffer minus the implicit final
newline (`get("1.0", "end-1c")`), store it, destroy the window. -/
def submit (s : AppState) : AppState :=
  { s with
    infinityInput := some (String.mk s.text.store.dropLast),
    destroyed := true }

/-- `update_timer` (lines 127-144): show the remaining time, decrement
it; once negative, force the buffer to the fallback string and submit;
otherwise reschedule the tick one second later.  (The source assigns the
label and the decremented countdown before testing it; the two
assignments are inlined into both branches here.) -/
def update_timer (s : AppState) : AppState :=
  if s.remainingTime - 1 < 0 then
    submit { s with
             timerLabel := timerText s.remainingTime,
             remainingTime := s.remainingTime - 1,
             text := textInsertAtStart (textDeleteAll s.text) (String.data "run infinity.py") }
  else
    after 1000 .updateTimer { s with
                              timerLabel := timerText s.remainingTime,
                              remainingTime := s.remainingTime - 1 }

/-- The handlers bound on the root window (lines 69-77). -/
inductive Handler where
  | undoCmd
  | redoCmd
  | submitCmd
  | noOp
deriving DecidableEq, Repr

/-- The root key-binding table exactly as registered in lines 69-77.
`<Shift-Return>` is bound to `lambda event: None`: a no-op handler that
leaves the widget's newline insertion in place. -/
def rootBindings : List (String × Handler) :=
  [("<Control-z>", .undoCmd),
   ("<Control-y>", .redoCmd),
   ("<Control-Shift-Z>", .redoCmd),
   ("<Return>", .submitCmd),
   ("<Shift-Return>", .noOp)]

/-- `auto_submit_time` (line 90). -/
def auto_submit_time : Int := 333

/-- The state built by `__init__` up to line 91: widgets created, the
timer label constructed with the hardcoded text `5:30`, the countdown set
to 333, the initial `edit_separator()` placed, the scrollbar callback
scheduled — but before the `update_timer()` call on line 92. -/
def initPre : AppState :=
  { text := { store := ['\n'], undoStack := [], redoStack := [], sepPending := true },
    statusText := "",
    statusColor := "green",
    timerLabel := "Auto-submit in: 5:30",
    remainingTime := auto_submit_time,
    infinityInput := none,
    destroyed := false,
    scheduled := [(100, .forceScrollbarVisible)],
    lastKeystrokeTime := 0 }

/-- The state at the end of `__init__` (after the `update_timer()` call on
line 92): the first state the event loop can display. -/
def initState : AppState := update_timer initPre

/-- The events the single-threaded loop can deliver to the app.  Key
events carry the wall-clock time; all key presses on the text widget
first run `on_key_press` (the `<Key>` binding), then the bound root
handler (or, for `<Shift-Return>`, the widget's default newline
insertion). -/
inductive Event where
  | keyChar (tau : ℚ) (c : Char)
  | shiftReturn (tau : ℚ)
  | ret (tau : ℚ)
  | ctrlZ (tau : ℚ)
  | ctrlY (tau : ℚ)
  | ctrlShiftZ (tau : ℚ)
  | clickSubmit
  | clickRelease
  | tick
  | clearStatusFires
  | closeWindow
deriving DecidableEq, Repr

/-- One step of the event loop.  A destroyed window processes nothing
(callbacks referencing a destroyed window are no-ops). -/
def step (s : AppState) (e : Event) : AppState :=
  if s.destroyed then s else
  match e with
  | .keyChar tau c =>
    let s1 := on_key_press tau s
    { s1 with text := textInsertAtCursor s1.text c }
  | .shiftReturn tau =>
    let s1 := on_key_press tau s
    { s1 with text := textInsertAtCursor s1.text '\n' }
  | .ret tau => submit (on_key_press tau s)
  | .ctrlZ tau => undo_action (on_key_press tau s)
  | .ctrlY tau => redo_action (on_key_press tau s)
  | .ctrlShiftZ tau => redo_action (on_key_press tau s)
  | .clickSubmit => submit s
  | .clickRelease => { s with text := edit_separator s.text }
  | .tick => update_timer s
  | .clearStatusFires => statusConfig "" "green" s
  | .closeWindow => { s with destroyed := true }

/-- Run the event loop over a list of events. -/
def run (s : AppState) (evs : List Event) : AppState :=
  evs.foldl step s

/-- `get_input` (lines 157-164): the value `mainloop` hands back once
the window is gone. -/
def get_input (evs : List Event) : Option String :=
  (run initState evs).infinityInput

/-- Python `str.split` on a single newline separator, on the character
list of the string: `"".split` gives one empty piece, a trailing
newline gives a trailing empty piece. -/
def splitNLAux : List Char → List (List Char)
  | [] => [[]]
  | c :: cs =>
    if c = '\n' then [] :: splitNLAux cs
    else
      match splitNLAux cs with
      | [] => [[c]]
      | h :: t => (c :: h) :: t

/-- `infinity_input.split` at newlines (line 175), as strings. -/
def splitNL (l : List Char) : List String :=
  (splitNLAux l).map String.mk

/-- Joining the split pieces back with newlines (the inverse reading of
the split, used to state that the printed lines reproduce the text). -/
def joinNL : List (List Char) → List Char
  | [] => []
  | [l] => l
  | l :: ls => l ++ '\n' :: joinNL ls

/-- The module-level epilogue (lines 171-179): print `Prompt:`; then, if
the captured value is truthy (not `None` and not the empty string), each
line of it; otherwise the fallback line. -/
def mainPrints : Option String → List String
  | none => ["Prompt:", "(no input provided)"]
  | some s =>
    if s = "" then ["Prompt:", "(no input provided)"]
    else "Prompt:" :: splitNL s.data

/-- The whole process's stdout, as a list of printed lines, for a given
event history of the dialog. -/
def processOutput (evs : List Event) : List String :=
  mainPrints (get_input evs)

/-- A keystroke delivering character `c` (at modelled time 0): `'\n'`
arrives as `<Shift-Return>`, anything else as a plain key. -/
def typeEvent (c : Char) : Event :=
  if c = '\n' then Event.shiftReturn 0 else Event.keyChar 0 c

/-- The event list that types out the text `t`. -/
def typeEvents (t : List Char) : List Event :=
  t.map typeEvent

theorem dropLast_snoc (l : List Char) (a : Char) : (l ++ [a]).dropLast = l := by
  simp

@[simp]
theorem run_nil (s : AppState) : run s [] = s := rfl

@[simp]
theorem run_cons (s : AppState) (e : Event) (evs : List Event) :
    run s (e :: evs) = run (step s e) evs := rfl

theorem run_append (s : AppState) (a b : List Event) :
    run s (a ++ b) = run (run s a) b :=
  List.foldl_append step s a b

theorem step_destroyed_id (s : AppState) (e : Event) (h : s.destroyed = true) :
    step s e = s := by
  simp [step, h]

@[simp]
theorem on_key_press_destroyed (tau : ℚ) (s : AppState) :
    (on_key_press tau s).destroyed = s.destroyed := rfl

@[simp]
theorem on_key_press_infinityInput (tau : ℚ) (s : AppState) :
    (on_key_press tau s).infinityInput = s.infinityInput := rfl

@[simp]
theorem on_key_press_remainingTime (tau : ℚ) (s : AppState) :
    (on_key_press tau s).remainingTime = s.remainingTime := rfl

@[simp]
theorem on_key_press_statusText (tau : ℚ) (s : AppState) :
    (on_key_press tau s).statusText = s.statusText := rfl

@[simp]
theorem on_key_press_scheduled (tau : ℚ) (s : AppState) :
    (on_key_press tau s).scheduled = s.scheduled := rfl

@[simp]
theorem on_key_press_text_store (tau : ℚ) (s : AppState) :
    (on_key_press tau s).text.store = s.text.store := by
  by_cases h : tau - s.lastKeystrokeTime > 1 <;> simp [on_key_press, h, edit_separator]

@[simp]
theorem on_key_press_text_undoStack (tau : ℚ) (s : AppState) :
    (on_key_press tau s).text.undoStack = s.text.undoStack := by
  by_cases h : tau - s.lastKeystrokeTime > 1 <;> simp [on_key_press, h, edit_separator]

@[simp]
theorem on_key_press_text_redoStack (tau : ℚ) (s : AppState) :
    (on_key_press tau s).text.redoStack = s.text.redoStack := by
  by_cases h : tau - s.lastKeystrokeTime > 1 <;> simp [on_key_press, h, edit_separator]

theorem on_key_press_sepPending_of_gap (tau : ℚ) (s : AppState)
    (h : tau - s.lastKeystrokeTime > 1) :
    (on_key_press tau s).text.sepPending = true := by
  simp [on_key_press, h, edit_separator]

theorem edit_undo_nil (w : TextWidget) (h : w.undoStack = []) : edit_undo w = none := by
  unfold edit_undo
  rw [h]

theorem edit_undo_cons (w : TextWidget) (a : List Char) (rest : List (List Char))
    (h : w.undoStack = a :: rest) :
    edit_undo w = some { store := a, undoStack := rest,
                         redoStack := w.store :: w.redoStack, sepPending := true } := by
  unfold edit_undo
  rw [h]

theorem edit_redo_nil (w : TextWidget) (h : w.redoStack = []) : edit_redo w = none := by
  unfold edit_redo
  rw [h]

theorem edit_redo_cons (w : TextWidget) (a : List Char) (rest : List (List Char))
    (h : w.redoStack = a :: rest) :
    edit_redo w = some { store := a, redoStack := rest,
                         undoStack := w.store :: w.undoStack, sepPending := true } := by
  unfold edit_redo
  rw [h]

theorem undo_action_of_nil (s : AppState) (h : s.text.undoStack = []) :
    undo_action s = after 1500 .clearStatus (statusConfig "Nothing to undo" "red" s) := by
  unfold undo_action
  rw [edit_undo_nil s.text h]

theorem undo_action_of_cons (s : AppState) (a : List Char) (rest : List (List Char))
    (h : s.text.undoStack = a :: rest) :
    undo_action s = { s with text := { store := a, undoStack := rest,
                                       redoStack := s.text.store :: s.text.redoStack,
                                       sepPending := true } } := by
  unfold undo_action
  rw [edit_undo_cons s.text a rest h]

theorem redo_action_of_nil (s : AppState) (h : s.text.redoStack = []) :
    redo_action s = after 1500 .clearStatus (statusConfig "Nothing to redo" "red" s) := by
  unfold redo_action
  rw [edit_redo_nil s.text h]

theorem redo_action_of_cons (s : AppState) (a : List Char) (rest : List (List Char))
    (h : s.text.redoStack = a :: rest) :
    redo_action s = { s with text := { store := a, redoStack := rest,
                                       undoStack := s.text.store :: s.text.undoStack,
                                       sepPending := true } } := by
  unfold redo_action
  rw [edit_redo_cons s.text a rest h]

theorem undo_action_infinityInput (s : AppState) :
    (undo_action s).infinityInput = s.infinityInput := by
  unfold undo_action
  rcases h : edit_undo s.text with _ | w <;> simp [after, statusConfig]

theorem undo_action_destroyed (s : AppState) :
    (undo_action s).destroyed = s.destroyed := by
  unfold undo_action
  rcases h : edit_undo s.text with _ | w <;> simp [after, statusConfig]

theorem redo_action_infinityInput (s : AppState) :
    (redo_action s).infinityInput = s.infinityInput := by
  unfold redo_action
  rcases h : edit_redo s.text with _ | w <;> simp [after, statusConfig]

theorem redo_action_destroyed (s : AppState) :
    (redo_action s).destroyed = s.destroyed := by
  unfold redo_action
  rcases h : edit_redo s.text with _ | w <;> simp [after, statusConfig]

theorem update_timer_cases (s : AppState) :
    (update_timer s).destroyed = true ∨
    ((update_timer s).infinityInput = s.infinityInput ∧
     (update_timer s).destroyed = s.destroyed) := by
  unfold update_timer
  split
  · left
    rfl
  · right
    exact ⟨rfl, rfl⟩

theorem splitNLAux_cons_nl (cs : List Char) :
    splitNLAux ('\n' :: cs) = [] :: splitNLAux cs := by
  simp [splitNLAux]

theorem splitNLAux_cons_of (c : Char) (cs : List Char) (a : List Char)
    (t : List (List Char)) (hc : c ≠ '\n') (h : splitNLAux cs = a :: t) :
    splitNLAux (c :: cs) = (c :: a) :: t := by
  simp [splitNLAux, hc, h]

theorem splitNLAux_ne_nil (l : List Char) : splitNLAux l ≠ [] := by
  induction l with
  | nil => simp [splitNLAux]
  | cons c cs ih =>
    simp only [splitNLAux]
    split
    · simp
    · cases h : splitNLAux cs with
      | nil => simp
      | cons a t => simp

theorem joinNL_cons_cons (a b : List Char) (t : List (List Char)) :
    joinNL (a :: b :: t) = a ++ '\n' :: joinNL (b :: t) := rfl

theorem joinNL_splitNLAux (l : List Char) : joinNL (splitNLAux l) = l := by
  induction l with
  | nil => rfl
  | cons c cs ih =>
    by_cases hc : c = '\n'
    · subst hc
      rw [splitNLAux_cons_nl]
      cases h : splitNLAux cs with
      | nil => exact absurd h (splitNLAux_ne_nil cs)
      | cons a t =>
        rw [h] at ih
        rw [joinNL_cons_cons]
        simpa using ih
    · cases h : splitNLAux cs with
      | nil => exact absurd h (splitNLAux_ne_nil cs)
      | cons a t =>
        rw [splitNLAux_cons_of c cs a t hc h]
        rw [h] at ih
        cases t with
        | nil =>
          simp only [joinNL] at ih ⊢
          rw [ih]
        | cons b t2 =>
          rw [joinNL_cons_cons] at ih ⊢
          rw [List.cons_append, ih]

theorem step_typeEvent (s : AppState) (c : Char) (hd : s.destroyed = false) :
    (step s (typeEvent c)).text.store = s.text.store.dropLast ++ [c, '\n'] ∧
    (step s (typeEvent c)).destroyed = false ∧
    (step s (typeEvent c)).infinityInput = s.infinityInput := by
  by_cases hc : c = '\n' <;>
    simp [typeEvent, hc, step, hd, textInsertAtCursor]

theorem run_typeEvents (t : List Char) : ∀ (s : AppState) (u : List Char),
    s.destroyed = false → s.text.store = u ++ ['\n'] →
    (run s (typeEvents t)).text.store = u ++ t ++ ['\n'] ∧
    (run s (typeEvents t)).destroyed = false ∧
    (run s (typeEvents t)).infinityInput = s.infinityInput := by
  induction t with
  | nil =>
    intro s u hd hs
    exact ⟨by simpa [typeEvents] using hs, by simpa [typeEvents] using hd, by simp [typeEvents]⟩
  | cons c cs ih =>
    intro s u hd hs
    obtain ⟨h1, h2, h3⟩ := step_typeEvent s c hd
    have hstore : (step s (typeEvent c)).text.store = (u ++ [c]) ++ ['\n'] := by
      rw [h1, hs, dropLast_snoc]
      simp
    obtain ⟨g1, g2, g3⟩ := ih (step s (typeEvent c)) (u ++ [c]) h2 hstore
    have hevs : typeEvents (c :: cs) = typeEvent c :: typeEvents cs := rfl
    refine ⟨?_, ?_, ?_⟩
    · rw [hevs, run_cons, g1]
      simp
    · rw [hevs, run_cons]
      exact g2
    · rw [hevs, run_cons, g3, h3]

/-- The capture invariant: while the window is alive, no result has been
captured. -/
def Inv (s : AppState) : Prop := s.destroyed = false → s.infinityInput = none

theorem step_Inv (s : AppState) (e : Event) (h : Inv s) : Inv (step s e) := by
  by_cases hd : s.destroyed
  · rw [step_destroyed_id s e hd]
    exact h
  · rw [Bool.not_eq_true] at hd
    intro hd'
    cases e with
    | keyChar tau c =>
      simp only [step, hd, Bool.false_eq_true, if_false]
      simpa using h hd
    | shiftReturn tau =>
      simp only [step, hd, Bool.false_eq_true, if_false]
      simpa using h hd
    | ret tau =>
      simp only [step, hd, Bool.false_eq_true, if_false, submit] at hd'
      exact Bool.noConfusion hd'
    | ctrlZ tau =>
      simp only [step, hd, Bool.false_eq_true, if_false]
      rw [undo_action_infinityInput, on_key_press_infinityInput]
      exact h hd
    | ctrlY tau =>
      simp only [step, hd, Bool.false_eq_true, if_false]
      rw [redo_action_infinityInput, on_key_press_infinityInput]
      exact h hd
    | ctrlShiftZ tau =>
      simp only [step, hd, Bool.false_eq_true, if_false]
      rw [redo_action_infinityInput, on_key_press_infinityInput]
      exact h hd
    | clickSubmit =>
      simp only [step, hd, Bool.false_eq_true, if_false, submit] at hd'
      exact Bool.noConfusion hd'
    | clickRelease =>
      simp only [step, hd, Bool.false_eq_true, if_false]
      simpa using h hd
    | tick =>
      simp only [step, hd, Bool.false_eq_true, if_false] at hd' ⊢
      rcases update_timer_cases s with hcase | ⟨hi, _⟩
      · rw [hcase] at hd'
        cases hd'
      · rw [hi]
        exact h hd
    | clearStatusFires =>
      simp only [step, hd, Bool.false_eq_true, if_false, statusConfig]
      exact h hd
    | closeWindow =>
      simp only [step, hd, Bool.false_eq_true, if_false]
      exact h hd

theorem run_Inv (evs : List Event) : ∀ s : AppState, Inv s → Inv (run s evs) := by
  induction evs with
  | nil => intro s h; exact h
  | cons e evs ih =>
    intro s h
    rw [run_cons]
    exact ih (step s e) (step_Inv s e h)

theorem initState_destroyed : initState.destroyed = false := by decide

theorem initState_infinityInput : initState.infinityInput = none := by decide

theorem initState_store : initState.text.store = [] ++ ['\n'] := by decide

theorem Inv_initState : Inv initState := fun _ => initState_infinityInput

theorem step_ctrlZ_fields (s : AppState) (tau : ℚ) (hd : s.destroyed = false)
    (a : List Char) (rest : List (List Char)) (h : s.text.undoStack = a :: rest) :
    (step s (Event.ctrlZ tau)).text.store = a ∧
    (step s (Event.ctrlZ tau)).text.redoStack = s.text.store :: s.text.redoStack ∧
    (step s (Event.ctrlZ tau)).destroyed = false := by
  have h2 : (on_key_press tau s).text.undoStack = a :: rest := by
    rw [on_key_press_text_undoStack]
    exact h
  simp [step, hd, undo_action_of_cons (on_key_press tau s) a rest h2]

theorem step_ctrlY_fields (s : AppState) (tau : ℚ) (hd : s.destroyed = false)
    (a : List Char) (rest : List (List Char)) (h : s.text.redoStack = a :: rest) :
    (step s (Event.ctrlY tau)).text.store = a ∧
    (step s (Event.ctrlY tau)).destroyed = false := by
  have h2 : (on_key_press tau s).text.redoStack = a :: rest := by
    rw [on_key_press_text_redoStack]
    exact h
  simp [step, hd, redo_action_of_cons (on_key_press tau s) a rest h2]

theorem step_keyChar_fields (s : AppState) (tau : ℚ) (c : Char)
    (hd : s.destroyed = false) (hgap : tau - s.lastKeystrokeTime > 1) :
    (step s (Event.keyChar tau c)).text.store = s.text.store.dropLast ++ [c, '\n'] ∧
    (step s (Event.keyChar tau c)).text.undoStack = s.text.store :: s.text.undoStack ∧
    (step s (Event.keyChar tau c)).text.redoStack = [] ∧
    (step s (Event.keyChar tau c)).destroyed = false := by
  simp [step, hd, textInsertAtCursor, on_key_press_sepPending_of_gap tau s hgap,
    on_key_press, hgap, edit_separator]

/-- C1: on completion the process prints the literal line `Prompt:`
first; then, if nothing was captured (`None`, or the empty string the
falsy check treats the same way), the literal line `(no input provided)`;
otherwise each line of the captured text individually, in original order
(`splitNL` is the `split` at newlines the source applies, and
`joinNL_splitNLAux` certifies those pieces are the text's lines in
order). -/
theorem C1_stdout_lines (i : Option String) :
    (mainPrints i).head? = some "Prompt:" ∧
    (i = none → (mainPrints i).tail = ["(no input provided)"]) ∧
    (i = some "" → (mainPrints i).tail = ["(no input provided)"]) ∧
    (∀ s : String, i = some s → s ≠ "" → (mainPrints i).tail = splitNL s.data) := by
  refine ⟨?_, ?_, ?_, ?_⟩
  · cases i with
    | none => rfl
    | some s =>
      by_cases h : s = "" <;> simp [mainPrints, h]
  · rintro rfl
    rfl
  · rintro rfl
    rfl
  · rintro s rfl hne
    simp [mainPrints, hne]

/-- Witness for C1 at concrete captured values. -/
theorem C1_stdout_lines_witness :
    (mainPrints (some "a\nb")).tail = splitNL (String.data "a\nb") ∧
    (mainPrints none).tail = ["(no input provided)"] ∧
    (mainPrints (some "")).tail = ["(no input provided)"] :=
  ⟨(C1_stdout_lines (some "a\nb")).2.2.2 "a\nb" rfl (by decide),
   (C1_stdout_lines none).2.1 rfl,
   (C1_stdout_lines (some "")).2.2.1 rfl⟩

/-- C2 counterexample: submitting with nothing entered captures the
empty string, yet the printed lines are `(no input provided)` rather
than that captured string split at newlines (which would be one empty
line) — the reproduction property fails for the empty text. -/
theorem C2_counterexample :
    get_input [Event.clickSubmit] = some "" ∧
    processOutput [Event.clickSubmit] ≠ "Prompt:" :: splitNL (String.data "") := by
  decide

/-- C2 amended: for every NONEMPTY text entered then submitted before
the timeout, submit captures exactly the buffer minus the implicit
trailing newline, the printed lines after `Prompt:` are exactly that
captured text split at newlines, and joining those lines with newlines
reproduces the entered text exactly (no extra trailing empty line). -/
theorem C2_submit_roundtrip (t : List Char) (h : t ≠ []) :
    get_input (typeEvents t ++ [Event.clickSubmit]) = some (String.mk t) ∧
    processOutput (typeEvents t ++ [Event.clickSubmit]) = "Prompt:" :: splitNL t ∧
    joinNL (splitNLAux t) = t := by
  obtain ⟨g1, g2, g3⟩ := run_typeEvents t initState [] initState_destroyed initState_store
  have hrun : run initState (typeEvents t ++ [Event.clickSubmit])
      = step (run initState (typeEvents t)) Event.clickSubmit := by
    rw [run_append, run_cons, run_nil]
  have hstep : (step (run initState (typeEvents t)) Event.clickSubmit).infinityInput
      = some (String.mk ((run initState (typeEvents t)).text.store.dropLast)) := by
    simp [step, g2, submit]
  have hstore : (run initState (typeEvents t)).text.store.dropLast = t := by
    rw [g1]
    rw [show ([] : List Char) ++ t ++ ['\n'] = t ++ ['\n'] by simp]
    exact dropLast_snoc t '\n'
  have hinput : get_input (typeEvents t ++ [Event.clickSubmit]) = some (String.mk t) := by
    unfold get_input
    rw [hrun, hstep, hstore]
  have hne : String.mk t ≠ "" := by
    intro he
    exact h (congrArg String.data he)
  refine ⟨hinput, ?_, joinNL_splitNLAux t⟩
  unfold processOutput
  rw [hinput]
  simp [mainPrints, hne, splitNL]

/-- Witness for C2 (amended) at the text `hello`, newline, `world`. -/
theorem C2_submit_roundtrip_witness :
    processOutput (typeEvents (String.data "hello\nworld") ++ [Event.clickSubmit])
      = "Prompt:" :: splitNL (String.data "hello\nworld") :=
  (C2_submit_roundtrip (String.data "hello\nworld") (by decide)).2.1

/-- C3: when the countdown goes below zero on a tick without a manual
submit having happened (the window is still alive), the buffer is
forcibly replaced by the fallback string `run infinity.py`, submit is
triggered (the result is captured and the window destroyed), and the
process output is exactly `Prompt:` followed by that fallback string and
nothing else. -/
theorem C3_timeout_fallback (s : AppState) (hd : s.destroyed = false)
    (hr : s.remainingTime - 1 < 0) :
    (step s Event.tick).text.store = String.data "run infinity.py" ++ ['\n'] ∧
    (step s Event.tick).infinityInput = some "run infinity.py" ∧
    (step s Event.tick).destroyed = true ∧
    mainPrints (step s Event.tick).infinityInput = ["Prompt:", "run infinity.py"] := by
  have hstep : step s Event.tick = update_timer s := by
    simp [step, hd]
  rw [hstep]
  unfold update_timer
  rw [if_pos hr]
  have hstore : (submit { s with
      timerLabel := timerText s.remainingTime,
      remainingTime := s.remainingTime - 1,
      text := textInsertAtStart (textDeleteAll s.text) (String.data "run infinity.py")
    }).text.store = String.data "run infinity.py" ++ ['\n'] := by
    simp [submit, textInsertAtStart, textDeleteAll]
  have hinput : (submit { s with
      timerLabel := timerText s.remainingTime,
      remainingTime := s.remainingTime - 1,
      text := textInsertAtStart (textDeleteAll s.text) (String.data "run infinity.py")
    }).infinityInput = some "run infinity.py" := by
    simp [submit, textInsertAtStart, textDeleteAll, dropLast_snoc]
  refine ⟨hstore, hinput, rfl, ?_⟩
  rw [hinput]
  decide

/-- Witness for C3 at a concrete alive state whose countdown is about to
go negative. -/
theorem C3_timeout_fallback_witness :
    (step { initState with remainingTime := 0 } Event.tick).infinityInput
      = some "run infinity.py" ∧
    (step { initState with remainingTime := 0 } Event.tick).destroyed = true :=
  ⟨(C3_timeout_fallback { initState with remainingTime := 0 } (by decide) (by decide)).2.1,
   (C3_timeout_fallback { initState with remainingTime := 0 } (by decide) (by decide)).2.2.1⟩

/-- C4: undo (resp. redo) with no further history raises no unhandled
fault — the toolkit error is the `none` which `undo_action`/`redo_action`
handle totally — does not alter the text buffer, shows the transient
status `Nothing to undo` (resp. `Nothing to redo`), and schedules the
status to be cleared 1500 ms (1.5 s) later; firing that scheduled
callback indeed clears the message. -/
theorem C4_empty_history_transient (s : AppState) (hd : s.destroyed = false)
    (hu : s.text.undoStack = []) (hr : s.text.redoStack = []) :
    edit_undo s.text = none ∧
    (undo_action s).text = s.text ∧
    (undo_action s).statusText = "Nothing to undo" ∧
    (undo_action s).statusColor = "red" ∧
    (undo_action s).scheduled = s.scheduled ++ [(1500, Callback.clearStatus)] ∧
    (step (undo_action s) Event.clearStatusFires).statusText = "" ∧
    edit_redo s.text = none ∧
    (redo_action s).text = s.text ∧
    (redo_action s).statusText = "Nothing to redo" ∧
    (redo_action s).statusColor = "red" ∧
    (redo_action s).scheduled = s.scheduled ++ [(1500, Callback.clearStatus)] ∧
    (step (redo_action s) Event.clearStatusFires).statusText = "" := by
  have hu' := undo_action_of_nil s hu
  have hr' := redo_action_of_nil s hr
  refine ⟨edit_undo_nil s.text hu, ?_, ?_, ?_, ?_, ?_, edit_redo_nil s.text hr,
          ?_, ?_, ?_, ?_, ?_⟩ <;>
    simp [hu', hr', after, statusConfig, step, hd]

/-- Witness for C4 at the freshly initialized app state (both history
stacks empty). -/
theorem C4_empty_history_transient_witness :
    (undo_action initState).statusText = "Nothing to undo" ∧
    (undo_action initState).text = initState.text ∧
    (redo_action initState).statusText = "Nothing to redo" :=
  ⟨(C4_empty_history_transient initState (by decide) (by decide) (by decide)).2.2.1,
   (C4_empty_history_transient initState (by decide) (by decide) (by decide)).2.1,
   (C4_empty_history_transient initState (by decide) (by decide) (by decide)).2.2.2.2.2.2.2.2.1⟩

/-- C5 counterexample: the first state the event loop can ever display
(the end of `__init__`) does not show the label `5:30`: the
`update_timer()` call inside `__init__` has already overwritten the
hardcoded label with the computed `5:33` and decremented the countdown
to 332. -/
theorem C5_counterexample :
    initState.timerLabel = "Auto-submit in: 5:33" ∧
    initState.timerLabel ≠ "Auto-submit in: 5:30" ∧
    initState.remainingTime = 332 := by
  decide

/-- C5 amended: at initialization the countdown is set to the fixed
value 333 while the countdown label is CONSTRUCTED with the hardcoded
text `5:30`; but still inside initialization the first timer update
overwrites that label with the `M:SS` rendering of 333 (`5:33`) and
decrements the countdown to 332, so the hardcoded `5:30` is never the
label actually displayed next to the 333-second duration. -/
theorem C5_init_label :
    initPre.timerLabel = "Auto-submit in: 5:30" ∧
    initPre.remainingTime = 333 ∧
    auto_submit_time = 333 ∧
    initState.timerLabel = timerText 333 ∧
    timerText 333 = "Auto-submit in: 5:33" ∧
    initState.remainingTime = 332 := by
  decide

/-- C6: a tick on a live window decrements the countdown by one and
updates the displayed label to `M:SS` of the remaining time at the
tick's entry (the source writes the label before decrementing); when the
countdown goes negative the tick forces the buffer to the fallback
string and triggers submit (result captured, window destroyed); and
otherwise the tick schedules itself again 1000 ms later. -/
theorem C6_tick_behavior (s : AppState) (hd : s.destroyed = false) :
    (step s Event.tick).remainingTime = s.remainingTime - 1 ∧
    (step s Event.tick).timerLabel = timerText s.remainingTime ∧
    (s.remainingTime - 1 < 0 →
      (step s Event.tick).text.store = String.data "run infinity.py" ++ ['\n'] ∧
      (step s Event.tick).infinityInput = some "run infinity.py" ∧
      (step s Event.tick).destroyed = true) ∧
    (¬(s.remainingTime - 1 < 0) →
      (step s Event.tick).scheduled = s.scheduled ++ [(1000, Callback.updateTimer)] ∧
      (step s Event.tick).destroyed = false) := by
  have hstep : step s Event.tick = update_timer s := by
    simp [step, hd]
  rw [hstep]
  unfold update_timer
  by_cases hr : s.remainingTime - 1 < 0
  · rw [if_pos hr]
    refine ⟨rfl, rfl, fun _ => ⟨?_, ?_, rfl⟩, fun hc => absurd hr hc⟩
    · simp [submit, textInsertAtStart, textDeleteAll]
    · simp [submit, textInsertAtStart, textDeleteAll, dropLast_snoc]
  · rw [if_neg hr]
    refine ⟨rfl, rfl, fun hc => absurd hc hr, fun _ => ⟨?_, ?_⟩⟩
    · simp [after]
    · simp [after, hd]

/-- Witness for C6 at the freshly initialized app state. -/
theorem C6_tick_behavior_witness :
    (step initState Event.tick).remainingTime = initState.remainingTime - 1 ∧
    (step initState Event.tick).timerLabel = timerText initState.remainingTime :=
  ⟨(C6_tick_behavior initState (by decide)).1,
   (C6_tick_behavior initState (by decide)).2.1⟩

/-- C7: over every event history, the captured-result slot holds no
string while the window is alive, a set slot implies the window has
closed (so the slot is set, at most once, exactly at the closing step),
and once the window is destroyed every further event is a no-op — so
the slot is never mutated afterward. -/
theorem C7_captured_once (evs : List Event) :
    ((run initState evs).destroyed = false → (run initState evs).infinityInput = none) ∧
    ((run initState evs).infinityInput ≠ none → (run initState evs).destroyed = true) ∧
    (∀ e : Event, (run initState evs).destroyed = true →
      step (run initState evs) e = run initState evs) := by
  have hInv := run_Inv evs initState Inv_initState
  refine ⟨hInv, ?_, fun e hd => step_destroyed_id _ e hd⟩
  intro hne
  cases hb : (run initState evs).destroyed with
  | false => exact absurd (hInv hb) hne
  | true => rfl

/-- Witness for C7 at the one-event history that submits at once. -/
theorem C7_captured_once_witness :
    (run initState [Event.clickSubmit]).infinityInput ≠ none ∧
    (run initState [Event.clickSubmit]).destroyed = true :=
  ⟨by decide, (C7_captured_once [Event.clickSubmit]).2.1 (by decide)⟩

/-- C8: a keystroke arriving more than one second after the previous one
(so a checkpoint is placed before it) appends its character; undo
invoked right afterwards restores the buffer to its exact pre-keystroke
content, and redo invoked right after that undo restores the
post-keystroke content — redo after undo is the identity on that
edit. -/
theorem C8_undo_redo_single_keystroke (s : AppState) (c : Char) (t1 t2 t3 : ℚ)
    (hd : s.destroyed = false) (hgap : t1 - s.lastKeystrokeTime > 1) :
    (step s (Event.keyChar t1 c)).text.store = s.text.store.dropLast ++ [c, '\n'] ∧
    (step (step s (Event.keyChar t1 c)) (Event.ctrlZ t2)).text.store = s.text.store ∧
    (step (step (step s (Event.keyChar t1 c)) (Event.ctrlZ t2)) (Event.ctrlY t3)).text.store
      = (step s (Event.keyChar t1 c)).text.store := by
  obtain ⟨k1, k2, k3, k4⟩ := step_keyChar_fields s t1 c hd hgap
  obtain ⟨z1, z2, z3⟩ :=
    step_ctrlZ_fields (step s (Event.keyChar t1 c)) t2 k4 s.text.store s.text.undoStack k2
  have hz2 : (step (step s (Event.keyChar t1 c)) (Event.ctrlZ t2)).text.redoStack
      = (step s (Event.keyChar t1 c)).text.store :: [] := by
    rw [z2, k3]
  obtain ⟨y1, _⟩ :=
    step_ctrlY_fields (step (step s (Event.keyChar t1 c)) (Event.ctrlZ t2)) t3 z3
      ((step s (Event.keyChar t1 c)).text.store) [] hz2
  exact ⟨k1, z1, y1⟩

/-- Witness for C8: type `a` at time 2 into the fresh app, undo at time
3, redo at time 4. -/
theorem C8_undo_redo_single_keystroke_witness :
    (step (step initState (Event.keyChar 2 'a')) (Event.ctrlZ 3)).text.store
      = initState.text.store ∧
    (step (step (step initState (Event.keyChar 2 'a')) (Event.ctrlZ 3)) (Event.ctrlY 4)).text.store
      = (step initState (Event.keyChar 2 'a')).text.store :=
  ⟨(C8_undo_redo_single_keystroke initState 'a' 2 3 4 (by decide)
      (by show (2 : ℚ) - 0 > 1; norm_num)).2.1,
   (C8_undo_redo_single_keystroke initState 'a' 2 3 4 (by decide)
      (by show (2 : ℚ) - 0 > 1; norm_num)).2.2⟩

/-- C9: in the root binding table, plain `<Return>` is bound to submit;
the augmented `<Shift-Return>` is bound to the no-op handler that leaves
the newline insertion in place; exactly the two combinations
`<Control-y>` and `<Control-Shift-Z>` are bound to redo; and exactly
`<Control-z>` is bound to undo.  Operationally, a Return event on a live
window submits (captures the buffer minus its trailing newline and
destroys the window), while a Shift-Return event inserts a literal
newline instead of submitting. -/
theorem C9_key_bindings (s : AppState) (tau : ℚ) (hd : s.destroyed = false) :
    rootBindings.lookup "<Return>" = some Handler.submitCmd ∧
    rootBindings.lookup "<Shift-Return>" = some Handler.noOp ∧
    rootBindings.lookup "<Control-z>" = some Handler.undoCmd ∧
    rootBindings.lookup "<Control-y>" = some Handler.redoCmd ∧
    rootBindings.lookup "<Control-Shift-Z>" = some Handler.redoCmd ∧
    (rootBindings.filter (fun b => b.2 == Handler.redoCmd)).map Prod.fst
      = ["<Control-y>", "<Control-Shift-Z>"] ∧
    (rootBindings.filter (fun b => b.2 == Handler.undoCmd)).map Prod.fst
      = ["<Control-z>"] ∧
    (rootBindings.filter (fun b => b.2 == Handler.submitCmd)).map Prod.fst
      = ["<Return>"] ∧
    (step s (Event.ret tau)).destroyed = true ∧
    (step s (Event.ret tau)).infinityInput = some (String.mk s.text.store.dropLast) ∧
    (step s (Event.shiftReturn tau)).text.store = s.text.store.dropLast ++ ['\n', '\n'] ∧
    (step s (Event.shiftReturn tau)).destroyed = false ∧
    (step s (Event.shiftReturn tau)).infinityInput = s.infinityInput := by
  refine ⟨by decide, by decide, by decide, by decide, by decide, by decide, by decide,
          by decide, ?_, ?_, ?_, ?_, ?_⟩
  · simp [step, hd, submit]
  · simp [step, hd, submit]
  · simp [step, hd, textInsertAtCursor]
  · simp [step, hd, textInsertAtCursor]
  · simp [step, hd, textInsertAtCursor]

/-- Witness for C9 at the freshly initialized app state. -/
theorem C9_key_bindings_witness :
    (step initState (Event.ret 2)).destroyed = true ∧
    (step initState (Event.shiftReturn 2)).destroyed = false :=
  ⟨(C9_key_bindings initState 2 (by decide)).2.2.2.2.2.2.2.2.1,
   (C9_key_bindings initState 2 (by decide)).2.2.2.2.2.2.2.2.2.2.2.1⟩

/-- C10: closing the window by the window manager while it is still
alive (so submit has never run) leaves the captured-result slot unset:
`get_input` returns `None`, and the process prints `Prompt:` followed by
`(no input provided)` — the same output as for an empty captured
buffer. -/
theorem C10_close_without_submit (evs : List Event)
    (h : (run initState evs).destroyed = false) :
    get_input (evs ++ [Event.closeWindow]) = none ∧
    processOutput (evs ++ [Event.closeWindow]) = ["Prompt:", "(no input provided)"] := by
  have hnone : (run initState evs).infinityInput = none := run_Inv evs initState Inv_initState h
  have hrun : run initState (evs ++ [Event.closeWindow])
      = step (run initState evs) Event.closeWindow := by
    rw [run_append, run_cons, run_nil]
  have hstep : (step (run initState evs) Event.closeWindow).infinityInput
      = (run initState evs).infinityInput := by
    simp [step, h]
  have hin : get_input (evs ++ [Event.closeWindow]) = none := by
    unfold get_input
    rw [hrun, hstep, hnone]
  refine ⟨hin, ?_⟩
  unfold processOutput
  rw [hin]
  rfl

/-- Witness for C10: the window is closed immediately, with no prior
events. -/
theorem C10_close_without_submit_witness :
    processOutput [Event.closeWindow] = ["Prompt:", "(no input provided)"] :=
  (C10_close_without_submit [] (by decide)).2

end Infinity
